import Mathlib

/-!
# Verification of the Mini_Buyer lead-intake core

Shallow embedding of the buyer validation / CSV import / diff-tracking /
optimistic-concurrency logic of the Mini_Buyer repository, together with
theorems settling the spec claims about it.

Sources embedded:
* `src/lib/validations/buyer.ts` — zod schemas (`createBuyerSchema`,
  `csvImportRowSchema`) and their cross-field refinements;
* `src/app/api/buyers/import/route.ts` — CSV import POST handler;
* `src/app/api/buyers/route.ts` — create POST handler (write sequence);
* the buyer `[id]` route (`GET`/`PUT`/`DELETE`) — update pipeline with
  optimistic concurrency, diff computation and history insertion;
* `src/app/api/buyers/export/route.ts` — CSV export GET handler.
-/

namespace MiniBuyer

/-! ## Enumerations (src/lib/validations/buyer.ts lines 3-9) -/

def cityEnum : List String := ["Chandigarh", "Mohali", "Zirakpur", "Panchkula", "Other"]

def propertyTypeEnum : List String := ["Apartment", "Villa", "Plot", "Office", "Retail"]

def bhkEnum : List String := ["1", "2", "3", "4", "Studio"]

def purposeEnum : List String := ["Buy", "Rent"]

def timelineEnum : List String := ["0-3m", "3-6m", ">6m", "Exploring"]

def sourceEnum : List String := ["Website", "Referral", "Walk-in", "Call", "Other"]

def statusEnum : List String :=
  ["New", "Qualified", "Contacted", "Visited", "Negotiation", "Converted", "Dropped"]

/-! ## JavaScript numeric parsing

`csvImportRowSchema.budgetMin/budgetMax` (buyer.ts lines 59-60) run
`(val) => val ? parseInt(val, 10) : undefined` and pipe the result through
`z.number().int().min(0).optional()`.  We model `parseInt(·, 10)`:
it skips leading whitespace, accepts one optional sign, reads the longest
leading run of decimal digits (ignoring any trailing characters), and
yields NaN (here `none`) when that run is empty. -/

def digitVal (c : Char) : Nat := c.toNat - '0'.toNat

/-- Longest prefix of decimal digits. -/
def takeDigits : List Char → List Char
  | [] => []
  | c :: cs => if c.isDigit then c :: takeDigits cs else []

/-- Model of JavaScript `parseInt(s, 10)`; `none` stands for `NaN`.
After skipping whitespace, at most one leading `-` or `+` is consumed, the
longest run of digits is read, and everything after it is ignored. -/
def parseIntJS (s : String) : Option Int :=
  let cs := s.data.dropWhile (fun c => c == ' ' || c == '\t' || c == '\n' || c == '\r')
  match cs with
  | [] => none
  | c :: rest =>
    let neg : Bool := c == '-'
    let body : List Char := if c == '-' || c == '+' then rest else c :: rest
    let ds := takeDigits body
    if ds.isEmpty then none
    else
      let n : Nat := ds.foldl (fun a d => a * 10 + digitVal d) 0
      some (if neg then -(n : Int) else (n : Int))

/-- The CSV budget-cell pipeline (buyer.ts lines 59-60):
`z.string().transform((val) => val ? parseInt(val, 10) : undefined)`
`.pipe(z.number().int().min(0).optional())`.
Result `none` means the row fails validation; `some none` means the field
is absent (`undefined`); `some (some n)` is the coerced integer.
The empty string is the only falsy cell value (cells are pre-trimmed
strings), so it maps to `undefined`; `NaN` fails `z.number()`; `parseInt`
with radix 10 always yields an integer, so `.int()` never fails on its
own; a negative value fails `.min(0)`. -/
def parseBudgetCell (cell : String) : Option (Option Int) :=
  if cell == "" then some none
  else
    match parseIntJS cell with
    | none => none
    | some n => if 0 ≤ n then some (some n) else none

/-! ## Cross-field refinements (buyer.ts lines 26-44 and 66-82) -/

/-- JS truthiness of an optional numeric field: `undefined` and `0` are falsy. -/
def numTruthy : Option Int → Bool
  | none => false
  | some n => n != 0

/-- The budget refinement shared by `createBuyerSchema` and
`csvImportRowSchema` (buyer.ts lines 35-44 and 74-82):
`if (data.budgetMin && data.budgetMax && data.budgetMax < data.budgetMin)
 return false; return true;`.
The guard uses JS truthiness on the numbers, so a `0` bound short-circuits
the check. -/
def budgetRefine (bmin bmax : Option Int) : Bool :=
  if numTruthy bmin && numTruthy bmax && decide (bmax.getD 0 < bmin.getD 0) then false
  else true

/-- The BHK refinement (buyer.ts lines 26-34 and 66-73) as it acts on a CSV
row: after parsing, `data.bhk` is the cell text (`""` when the column was
empty, which is falsy), and the refinement fails when the property type is
`Apartment` or `Villa` and `bhk` is falsy. -/
def bhkRefine (propertyType bhk : String) : Bool :=
  if (propertyType == "Apartment" || propertyType == "Villa") && bhk == "" then false
  else true

/-! ## Email syntax (model of `z.string().email()`)

zod validates emails with the regex
`/^(?!\.)(?!.*\.\.)([A-Z0-9_'+\-\.]*)[A-Z0-9_+-]@([A-Z0-9][A-Z0-9\-]*\.)+[A-Z]{2,}$/i`:
no leading dot, no `..` anywhere, a non-empty local part over the allowed
character class whose last character excludes `.`, one `@`, and a dotted
domain whose final label is at least two letters. -/

/-- Characters allowed anywhere in the local part (`[A-Z0-9_'+\-\.]`, case
insensitive; `Char.ofNat 39` is the apostrophe). -/
def emailLocalChar (c : Char) : Bool :=
  c.isAlphanum || c == '_' || c == '+' || c == '-' || c == '.' || c == Char.ofNat 39

/-- Characters allowed as the last character of the local part (`[A-Z0-9_+-]`). -/
def emailLocalLast (c : Char) : Bool :=
  c.isAlphanum || c == '_' || c == '+' || c == '-'

/-- Does the character list contain two consecutive dots? -/
def hasDoubleDot : List Char → Bool
  | [] => false
  | [_] => false
  | a :: b :: rest => (a == '.' && b == '.') || hasDoubleDot (b :: rest)

/-- Split a character list on a separator character. -/
def splitOnChar (sep : Char) : List Char → List (List Char)
  | [] => [[]]
  | c :: cs =>
    let rest := splitOnChar sep cs
    if c == sep then [] :: rest
    else
      match rest with
      | [] => [[c]]
      | r :: rs => (c :: r) :: rs

/-- One domain label before the TLD: `[A-Z0-9][A-Z0-9-]*`. -/
def emailLabelOk (l : List Char) : Bool :=
  match l with
  | [] => false
  | c :: cs => c.isAlphanum && cs.all (fun d => d.isAlphanum || d == '-')

/-- The final domain label: `[A-Z]{2,}`. -/
def emailTldOk (l : List Char) : Bool :=
  decide (2 ≤ l.length) && l.all Char.isAlpha

/-- Does the character list start with a dot? -/
def startsWithDot : List Char → Bool
  | '.' :: _ => true
  | _ => false

/-- Model of zod's `z.string().email()` predicate. -/
def emailOk (s : String) : Bool :=
  !(startsWithDot s.data) && !(hasDoubleDot s.data) &&
    (match splitOnChar '@' s.data with
     | [lp, dom] =>
       !lp.isEmpty && lp.all emailLocalChar &&
         (match lp.getLast? with
          | some c => emailLocalLast c
          | none => false) &&
         (let labels := splitOnChar '.' dom
          decide (2 ≤ labels.length) && labels.dropLast.all emailLabelOk &&
            (match labels.getLast? with
             | some t => emailTldOk t
             | none => false))
     | _ => false)

/-! ## CSV row validation (`csvImportRowSchema`, buyer.ts lines 51-82)

The import route builds each row dictionary from the header; we model rows
of a file whose header names all fourteen columns (the exported header
order), each cell already trimmed, with missing trailing cells filled with
`""` (import route lines 44-50). -/

structure CsvRow where
  fullName : String
  email : String
  phone : String
  city : String
  propertyType : String
  bhk : String
  purpose : String
  budgetMin : String
  budgetMax : String
  timeline : String
  source : String
  notes : String
  tags : String
  status : String
deriving DecidableEq

/-- Does a CSV row pass `csvImportRowSchema.parse`?  Field checks in schema
order, then the two `.refine`s.  Notes: `email`/`bhk`/`notes` accept the
empty string through `.or(z.literal(''))`; budgets go through
`parseBudgetCell`; `tags` is an unconditional transform that never fails;
`status` has a default that fires only when the key is absent, so with the
full header its cell must be a member of the enum. -/
def validateCsvRow (r : CsvRow) : Bool :=
  (decide (2 ≤ r.fullName.length) && decide (r.fullName.length ≤ 80)) &&
  (r.email == "" || emailOk r.email) &&
  (r.phone.data.all Char.isDigit && decide (10 ≤ r.phone.length) &&
    decide (r.phone.length ≤ 15)) &&
  cityEnum.contains r.city &&
  propertyTypeEnum.contains r.propertyType &&
  (r.bhk == "" || bhkEnum.contains r.bhk) &&
  purposeEnum.contains r.purpose &&
  (parseBudgetCell r.budgetMin).isSome &&
  (parseBudgetCell r.budgetMax).isSome &&
  timelineEnum.contains r.timeline &&
  sourceEnum.contains r.source &&
  (r.notes == "" || decide (r.notes.length ≤ 1000)) &&
  statusEnum.contains r.status &&
  bhkRefine r.propertyType r.bhk &&
  budgetRefine ((parseBudgetCell r.budgetMin).getD none)
    ((parseBudgetCell r.budgetMax).getD none)

/-- The spec's "numeric" cell: a non-empty string consisting solely of
decimal digits (an unsigned integer numeral). -/
def isNumericCell (s : String) : Bool :=
  !s.data.isEmpty && s.data.all Char.isDigit

/-! ## CSV import batch processing (import route lines 31-96)

The handler checks the batch size, then runs `csvImportRowSchema.parse`
over each data row with `forEach((row, index) => ...)`, pushing
`{ row: index + 2, message }` for each failure; if any error was collected
it returns 400 without touching the database, otherwise it inserts every
row (plus a creation history entry each) inside one `db.transaction`.
The row validator is a parameter so that theorems can state which stages
run independently of it. -/

/-- Row numbers (`index + 2`, 0-based `index`) of the rows failing
validation, in order — the `errors` array of the import route (lines
41-63), keeping only the row numbers. -/
def rowErrorsAux (validate : CsvRow → Bool) : Nat → List CsvRow → List Nat
  | _, [] => []
  | i, r :: rs =>
    if validate r then rowErrorsAux validate (i + 1) rs
    else (i + 2) :: rowErrorsAux validate (i + 1) rs

def rowErrors (validate : CsvRow → Bool) (rows : List CsvRow) : List Nat :=
  rowErrorsAux validate 0 rows

inductive ImportResult where
  | tooLarge
  | hasErrors (errors : List Nat) (validCount : Nat)
  | imported (count : Nat)
deriving DecidableEq

/-- The import handler after header parsing: `rows` are the data rows,
`table` the pre-existing buyers table (the rows it holds).  Returns the
HTTP-visible outcome and the table after the request (import route lines
34-96).  On success all rows are inserted in one transaction. -/
def importCsv (validate : CsvRow → Bool) (rows : List CsvRow) (table : List CsvRow) :
    ImportResult × List CsvRow :=
  if 200 < rows.length then (.tooLarge, table)
  else
    let errs := rowErrors validate rows
    if errs.isEmpty then (.imported rows.length, table ++ rows)
    else (.hasErrors errs (rows.filter validate).length, table)

/-! ## JavaScript values and the diff engine (buyer `[id]` route, PUT)

The PUT handler compares stored column values against the zod-validated
payload with `!==`.  Strict equality on primitives is value equality; on
arrays (the `tags` column) it is reference equality, so we carry an
allocation tag on array values: two arrays are `!==`-equal only when they
are the same allocation.  A JSON-parsed payload array is never the same
allocation as an array read from the database. -/

inductive JsVal where
  | str (s : String)
  | num (n : Int)
  | undefined
  | null
  | arr (ref : Nat) (elems : List String)
deriving DecidableEq

/-- JavaScript `===` (as used negated in the diff loop). -/
def jsStrictEq : JsVal → JsVal → Bool
  | .str a, .str b => a == b
  | .num a, .num b => a == b
  | .undefined, .undefined => true
  | .null, .null => true
  | .arr r _, .arr r' _ => r == r'
  | _, _ => false

/-- Value equality: like `===` but comparing array contents instead of
references.  Two field values "are the same" in the sense of the spec when
they agree under this relation. -/
def jsValEq : JsVal → JsVal → Bool
  | .str a, .str b => a == b
  | .num a, .num b => a == b
  | .undefined, .undefined => true
  | .null, .null => true
  | .arr _ xs, .arr _ ys => xs == ys
  | _, _ => false

/-- Is the value a non-array (primitive) value? -/
def jsScalar : JsVal → Bool
  | .arr _ _ => false
  | _ => true

/-- A stored buyer row: identity, owner, the `updatedAt` concurrency token
(epoch milliseconds) and the remaining columns as field/value pairs. -/
structure Buyer where
  id : String
  ownerId : String
  updatedAt : Nat
  fields : List (String × JsVal)
deriving DecidableEq

/-- `existingBuyer[0][key]`: a key that is not a stored column reads as
`undefined`. -/
def storedVal (b : Buyer) (k : String) : JsVal :=
  match b.fields.find? (fun kv => kv.1 == k) with
  | some kv => kv.2
  | none => .undefined

/-- The diff loop of the PUT handler (lines 98-108): for every key of the
validated payload except `id`/`updatedAt`/`ownerId`, emit
`(key, old, new)` when `oldValue !== newValue`. -/
def computeDiff (b : Buyer) (validated : List (String × JsVal)) :
    List (String × JsVal × JsVal) :=
  validated.filterMap (fun kv =>
    if kv.1 == "id" || kv.1 == "updatedAt" || kv.1 == "ownerId" then none
    else
      let old := storedVal b kv.1
      if jsStrictEq old kv.2 then none else some (kv.1, old, kv.2))

structure HistoryEntry where
  buyerId : String
  changedBy : String
  diff : List (String × JsVal × JsVal)
deriving DecidableEq

structure Db where
  buyers : List Buyer
  history : List HistoryEntry
deriving DecidableEq

/-- `if (body.updatedAt && new Date(body.updatedAt).getTime() !==
existingBuyer[0].updatedAt.getTime())` (PUT lines 84-90): `none` models a
falsy `body.updatedAt` (absent, `null`, `0`, or the empty string), under
which the whole check is skipped. -/
def conflictCheck (bodyUpdatedAt : Option Nat) (stored : Nat) : Bool :=
  match bodyUpdatedAt with
  | none => false
  | some t => t != stored

/-- Overwrite (or add) one field. -/
def setField (fields : List (String × JsVal)) (k : String) (v : JsVal) :
    List (String × JsVal) :=
  if fields.any (fun kv => kv.1 == k) then
    fields.map (fun kv => if kv.1 == k then (k, v) else kv)
  else fields ++ [(k, v)]

/-- `.set({...validatedData, updatedAt: new Date()})` (PUT lines 110-117):
every validated column overwrites the stored one — `id` stays the route's
`id`, `ownerId` is not in the schema, and `updatedAt` is overwritten by the
fresh `now` — so we fold the non-identity keys into the field map and stamp
`now`. -/
def applyUpdate (b : Buyer) (validated : List (String × JsVal)) (now : Nat) : Buyer :=
  { b with
    updatedAt := now
    fields :=
      (validated.filter
        (fun kv => !(kv.1 == "id" || kv.1 == "updatedAt" || kv.1 == "ownerId"))).foldl
        (fun fs kv => setField fs kv.1 kv.2) b.fields }

inductive PutResult where
  | notFound
  | conflict
  | invalid
  | ok
deriving DecidableEq

/-- The PUT handler (buyer `[id]` route lines 51-128) after authentication
and rate limiting: look the record up by id *and* owner, run the
optimistic-concurrency check, validate (`validate` stands for
`updateBuyerSchema.parse`; `none` models a `ZodError`, returned as 400
before any write), diff, persist the update, and insert one history entry
exactly when the diff is non-empty. -/
def putBuyer (validate : List (String × JsVal) → Option (List (String × JsVal)))
    (userId id : String) (bodyUpdatedAt : Option Nat)
    (body : List (String × JsVal)) (now : Nat) (db : Db) : PutResult × Db :=
  match db.buyers.find? (fun b => b.id == id && b.ownerId == userId) with
  | none => (.notFound, db)
  | some b =>
    if conflictCheck bodyUpdatedAt b.updatedAt then (.conflict, db)
    else
      match validate body with
      | none => (.invalid, db)
      | some validated =>
        let d := computeDiff b validated
        let b' := applyUpdate b validated now
        (.ok,
         { buyers := db.buyers.map (fun x => if x.id == id then b' else x)
           history :=
             if d.isEmpty then db.history
             else db.history ++ [⟨id, userId, d⟩] })

/-! ## Write traces and atomicity

Which database writes each handler issues, and how they are grouped into
atomic units.  A `single` write is one `await db.…` statement committed on
its own; a `transact` groups writes inside one `db.transaction` callback,
committed all-or-nothing.  An execution interrupted after `k` atomic units
(a crash, or a thrown error aborting the request) leaves exactly the
writes of the first `k` units visible to readers. -/

inductive DbWrite where
  | insertBuyer
  | updateBuyer
  | insertHistory
deriving DecidableEq

inductive DbAction where
  | single (w : DbWrite)
  | transact (ws : List DbWrite)
deriving DecidableEq

/-- The create handler, POST `/api/buyers` (lines 111-123): one
`db.insert(buyers)` then one `db.insert(buyerHistory)`, two separate
awaited statements with no enclosing transaction. -/
def createWriteTrace : List DbAction :=
  [.single .insertBuyer, .single .insertHistory]

/-- The update handler, PUT (lines 110-126), when the diff is non-empty:
one `db.update(buyers)` then one `db.insert(buyerHistory)`, again two
separate statements with no enclosing transaction. -/
def updateWriteTrace : List DbAction :=
  [.single .updateBuyer, .single .insertHistory]

/-- The import handler (lines 74-96): one `db.transaction` wrapping, for
each of the `n` validated rows, a buyer insert followed by a history
insert. -/
def importWriteTrace (n : Nat) : List DbAction :=
  [.transact (List.flatten (List.replicate n [DbWrite.insertBuyer, DbWrite.insertHistory]))]

def unitWrites : DbAction → List DbWrite
  | .single w => [w]
  | .transact ws => ws

/-- Writes visible to readers after the first `k` atomic units commit. -/
def visibleWrites (as : List DbAction) (k : Nat) : List DbWrite :=
  ((as.take k).map unitWrites).flatten

def isRecordWrite : DbWrite → Bool
  | .insertBuyer => true
  | .updateBuyer => true
  | .insertHistory => false

def isHistoryWrite : DbWrite → Bool
  | .insertHistory => true
  | _ => false

/-- A visible write set is balanced when every record write (insert or
update) is matched by its companion history write: no record persisted
without its history entry and vice versa. -/
def balanced (ws : List DbWrite) : Prop :=
  ws.countP isRecordWrite = ws.countP isHistoryWrite

instance (ws : List DbWrite) : Decidable (balanced ws) := by
  unfold balanced; infer_instance

/-! ## CSV export (export route lines 48-81)

`GET /api/buyers/export` reads the filtered buyers ordered by
`buyers.updatedAt` (ascending), then renders the fixed 14-column header
and one row per record; every cell is wrapped in `"…"`, but only the
`notes` cell has its internal double quotes doubled
(`(buyer.notes || '').replace(/"/g, '""')`); `tags` is `join(';')`;
falsy column values (`null`, the empty string, and the number `0` for the
budgets) render as the empty cell. -/

structure ExportBuyer where
  fullName : String
  email : Option String
  phone : String
  city : String
  propertyType : String
  bhk : Option String
  purpose : String
  budgetMin : Option Int
  budgetMax : Option Int
  timeline : String
  source : String
  notes : Option String
  tags : Option (List String)
  status : String
  updatedAt : Nat
deriving DecidableEq

/-- `x || ''` on a nullable string column. -/
def orEmpty : Option String → String
  | none => ""
  | some s => s

/-- `x || ''` on a nullable numeric column: `null` and `0` are falsy. -/
def numCell : Option Int → String
  | none => ""
  | some n => if n == 0 then "" else toString n

/-- `.replace(/"/g, '""')`. -/
def escapeQuotes (s : String) : String :=
  ⟨s.data.foldr (fun c acc => if c == '"' then '"' :: '"' :: acc else c :: acc) []⟩

/-- `` `"${field}"` ``: wrap a cell in double quotes. -/
def csvField (s : String) : String := "\"" ++ s ++ "\""

/-- The fourteen cells of one export row, in header order (export route
lines 63-78). -/
def exportCells (b : ExportBuyer) : List String :=
  [b.fullName,
   orEmpty b.email,
   b.phone,
   b.city,
   b.propertyType,
   orEmpty b.bhk,
   b.purpose,
   numCell b.budgetMin,
   numCell b.budgetMax,
   b.timeline,
   b.source,
   escapeQuotes (orEmpty b.notes),
   String.intercalate ";" ((b.tags).getD []),
   b.status].map csvField

def exportRow (b : ExportBuyer) : String :=
  String.intercalate "," (exportCells b)

def exportHeader : String :=
  "fullName,email,phone,city,propertyType,bhk,purpose,budgetMin,budgetMax,timeline,source,notes,tags,status"

/-- `orderBy(buyers.updatedAt)`: ascending sort on the concurrency
timestamp. -/
def updatedAtLe (a b : ExportBuyer) : Prop := a.updatedAt ≤ b.updatedAt

instance : DecidableRel updatedAtLe := fun a b => Nat.decLe a.updatedAt b.updatedAt

instance : IsTotal ExportBuyer updatedAtLe := ⟨fun a b => Nat.le_total a.updatedAt b.updatedAt⟩

instance : IsTrans ExportBuyer updatedAtLe := ⟨fun _ _ _ h h' => Nat.le_trans h h'⟩

def sortByUpdatedAt (bs : List ExportBuyer) : List ExportBuyer :=
  bs.insertionSort updatedAtLe

/-- The full export: header line, then one rendered row per stored record
in ascending `updatedAt` order. -/
def exportCsv (bs : List ExportBuyer) : List String :=
  exportHeader :: (sortByUpdatedAt bs).map exportRow

/-! ## Shared concrete rows -/

/-- The spec's §8 example row (with the full header's empty optional
cells). -/
def janeRow : CsvRow :=
  ⟨"Jane Roe", "", "9998887777", "Mohali", "Plot", "", "Buy", "", "", "0-3m",
    "Website", "", "", "New"⟩

/-- An invalid row: the phone number is too short for `/^\d{10,15}$/`. -/
def badPhoneRow : CsvRow :=
  ⟨"Jane Roe", "", "123", "Mohali", "Plot", "", "Buy", "", "", "0-3m",
    "Website", "", "", "New"⟩

/-- A ten-row batch whose 5th data row (1-based) is the only invalid one. -/
def batch10 : List CsvRow :=
  [janeRow, janeRow, janeRow, janeRow, badPhoneRow,
   janeRow, janeRow, janeRow, janeRow, janeRow]

/-- A stored buyer whose `tags` column holds the array allocation `0`. -/
def b0 : Buyer :=
  ⟨"b1", "u1", 1000, [("fullName", .str "Jane"), ("tags", .arr 0 ["vip"])]⟩

def db0 : Db := ⟨[b0], []⟩

/-- A validated no-op payload: the same field values as `b0`, but with the
`tags` array freshly allocated (allocation `1`) by `JSON` parsing — a
request body array is never the stored array object. -/
def noopPayload : List (String × JsVal) :=
  [("fullName", .str "Jane"), ("tags", .arr 1 ["vip"])]

/-- A stored record whose full name contains a double quote. -/
def quoteNameBuyer : ExportBuyer :=
  ⟨"a\"b", none, "9998887777", "Mohali", "Plot", none, "Buy", none, none,
    "0-3m", "Website", none, none, "New", 1000⟩

/-! ## Helper lemmas -/

/-- An invalid row at 0-based index `j` contributes error row number
`i + j + 2` when the scan starts at index `i`. -/
theorem mem_rowErrorsAux (v : CsvRow → Bool) :
    ∀ (rs : List CsvRow) (i j : Nat) (h : j < rs.length),
      v (rs.get ⟨j, h⟩) = false → i + j + 2 ∈ rowErrorsAux v i rs
  | [], _, j, h, _ => absurd h (Nat.not_lt_zero j)
  | r :: rs, i, 0, _, hv => by
      have hr : v r = false := hv
      unfold rowErrorsAux
      rw [hr]
      simp
  | r :: rs, i, j + 1, h, hv => by
      have hrec :=
        mem_rowErrorsAux v rs (i + 1) j (Nat.lt_of_succ_lt_succ h) hv
      have harith : i + 1 + j + 2 = i + (j + 1) + 2 := by omega
      rw [harith] at hrec
      unfold rowErrorsAux
      cases hr : v r with
      | true => simpa [hr] using hrec
      | false =>
        simp only [hr, Bool.false_eq_true, if_false]
        exact List.mem_cons_of_mem _ hrec

/-- The per-row body of the import transaction keeps record and history
writes in balance. -/
theorem importFlattenBalanced (n : Nat) :
    balanced (List.flatten (List.replicate n [DbWrite.insertBuyer, DbWrite.insertHistory])) := by
  induction n with
  | zero => rfl
  | succ n ih =>
    unfold balanced at *
    simp only [List.replicate_succ, List.flatten_cons, List.countP_append,
      List.countP_cons, List.countP_nil, isRecordWrite, isHistoryWrite] at *
    omega

/-- On primitive (non-array) values, `===` agrees with value equality. -/
theorem jsValEq_scalar_strict (u v : JsVal) (h : jsScalar v = true) :
    jsStrictEq u v = jsValEq u v := by
  cases v with
  | arr r es => simp [jsScalar] at h
  | str s => cases u <;> rfl
  | num n => cases u <;> rfl
  | undefined => cases u <;> rfl
  | null => cases u <;> rfl

/-- `takeDigits` keeps an all-digit list whole. -/
theorem takeDigits_of_all :
    ∀ (l : List Char), l.all Char.isDigit = true → takeDigits l = l
  | [], _ => rfl
  | c :: cs, h => by
      rw [List.all_cons, Bool.and_eq_true] at h
      unfold takeDigits
      rw [if_pos h.1, takeDigits_of_all cs h.2]

/-- A digit is `==`-distinct from any non-digit character. -/
theorem digit_bne (c d : Char) (hc : c.isDigit = true) (hd : d.isDigit = false) :
    (c == d) = false := by
  rw [beq_eq_false_iff_ne]
  intro he
  rw [he] at hc
  rw [hc] at hd
  exact Bool.noConfusion hd

/-- A non-empty all-digit cell passes the CSV budget pipeline with a
non-negative integer value. -/
theorem parseBudgetCell_numeric (s : String) (h : isNumericCell s = true) :
    ∃ n : Nat, parseBudgetCell s = some (some (n : Int)) := by
  rw [isNumericCell, Bool.and_eq_true, Bool.not_eq_true'] at h
  obtain ⟨hne, hall⟩ := h
  cases hd : s.data with
  | nil => rw [hd] at hne; exact Bool.noConfusion hne
  | cons c t =>
    rw [hd] at hall
    rw [List.all_cons, Bool.and_eq_true] at hall
    obtain ⟨hc, ht⟩ := hall
    have hsne : (s == "") = false := by
      rw [beq_eq_false_iff_ne]
      intro hs
      rw [hs] at hd
      exact List.noConfusion hd
    have hws : ((c == ' ' || c == '\t') || c == '\n' || c == '\r') = false := by
      rw [digit_bne c ' ' hc (by decide), digit_bne c '\t' hc (by decide),
        digit_bne c '\n' hc (by decide), digit_bne c '\r' hc (by decide)]
      rfl
    have hsign : (c == '-' || c == '+') = false := by
      rw [digit_bne c '-' hc (by decide), digit_bne c '+' hc (by decide)]
      rfl
    have hparse : parseIntJS s =
        some (((c :: t).foldl (fun a d => a * 10 + digitVal d) 0 : Nat) : Int) := by
      unfold parseIntJS
      rw [hd]
      rw [List.dropWhile_cons]
      simp only [hws, Bool.false_eq_true, if_false, hsign,
        takeDigits_of_all (c :: t) (by rw [List.all_cons, Bool.and_eq_true]; exact ⟨hc, ht⟩)]
      have hneg : (c == '-') = false := digit_bne c '-' hc (by decide)
      rw [hneg]
      simp
    refine ⟨(c :: t).foldl (fun a d => a * 10 + digitVal d) 0, ?_⟩
    unfold parseBudgetCell
    rw [hsne]
    simp only [Bool.false_eq_true, if_false, hparse]
    rw [if_pos (Int.natCast_nonneg _)]

/-! ## Claim theorems -/

/-- C1 (counterexample): the single-create and single-update handlers do
*not* wrap the record write and its history write in one transaction: an
execution interrupted after the first atomic unit (the record statement)
leaves a record write visible with no matching history write, contrary to
the claim that every such pair commits atomically. -/
theorem C1_counterexample :
    ¬ balanced (visibleWrites createWriteTrace 1) ∧
    ¬ balanced (visibleWrites updateWriteTrace 1) := by
  decide

/-- C1 (amended): the CSV import batch is one atomic transaction — every
interruption point leaves a balanced state — but a single create or single
update issues its record write and its history write as two separate
non-transactional statements, so interrupting between them (after one
atomic unit) leaves a record write without its history write; only a run
of both units is balanced. -/
theorem C1_amended_atomicity :
    (∀ (n k : Nat), balanced (visibleWrites (importWriteTrace n) k)) ∧
    ¬ balanced (visibleWrites createWriteTrace 1) ∧
    ¬ balanced (visibleWrites updateWriteTrace 1) ∧
    balanced (visibleWrites createWriteTrace 2) ∧
    balanced (visibleWrites updateWriteTrace 2) := by
  refine ⟨?_, by decide, by decide, by decide, by decide⟩
  intro n k
  cases k with
  | zero => rfl
  | succ k =>
    show balanced (((List.take (k + 1) (importWriteTrace n)).map unitWrites).flatten)
    unfold importWriteTrace
    rw [List.take_succ_cons, List.take_nil]
    simpa [unitWrites] using importFlattenBalanced n

/-- C3: a batch (within the size cap) containing at least one invalid row
commits nothing — the table is returned untouched — and the response is
the error outcome carrying, for every invalid row, its error row number. -/
theorem C3_invalid_batch_no_commit_all_errors
    (validate : CsvRow → Bool) (rows table : List CsvRow)
    (hlen : rows.length ≤ 200)
    (j : Nat) (hj : j < rows.length)
    (hbad : validate (rows.get ⟨j, hj⟩) = false) :
    (importCsv validate rows table).2 = table ∧
    (importCsv validate rows table).1 =
      .hasErrors (rowErrors validate rows) ((rows.filter validate).length) ∧
    ∀ (i : Nat) (h : i < rows.length), validate (rows.get ⟨i, h⟩) = false →
      i + 2 ∈ rowErrors validate rows := by
  have hmem : j + 2 ∈ rowErrors validate rows := by
    simpa using mem_rowErrorsAux validate rows 0 j hj hbad
  have hne : (rowErrors validate rows).isEmpty = false := by
    cases hE : rowErrors validate rows with
    | nil => rw [hE] at hmem; simp at hmem
    | cons a l => rfl
  have hnot : ¬ (200 < rows.length) := by omega
  refine ⟨?_, ?_, ?_⟩
  · unfold importCsv
    rw [if_neg hnot]
    simp only [hne, Bool.false_eq_true, if_false]
  · unfold importCsv
    rw [if_neg hnot]
    simp only [hne, Bool.false_eq_true, if_false]
  · intro i h hv
    simpa using mem_rowErrorsAux validate rows 0 i h hv

/-- C3 (witness): the concrete ten-row batch with one bad row commits
nothing and its error list contains that row's number. -/
theorem C3_witness :
    (importCsv validateCsvRow batch10 []).2 = ([] : List CsvRow) ∧
    6 ∈ rowErrors validateCsvRow batch10 :=
  ⟨(C3_invalid_batch_no_commit_all_errors validateCsvRow batch10 []
      (by decide) 4 (by decide) (by decide)).1,
   (C3_invalid_batch_no_commit_all_errors validateCsvRow batch10 []
      (by decide) 4 (by decide) (by decide)).2.2 4 (by decide) (by decide)⟩

/-- C8 (counterexample): in the ten-row batch whose 5th data row (1-based)
is the only invalid one, the import reports that row as row 6
(`0-based index 4 + 2`), not row 7 as the claim states. -/
theorem C8_counterexample :
    importCsv validateCsvRow batch10 [] = (.hasErrors [6] 9, []) ∧
    (7 : Nat) ∉ rowErrors validateCsvRow batch10 := by
  decide

/-- C8 (amended): each reported error row number is the 0-based data-row
index plus 2, so the first data row reports as row 2 and the Nth (1-based)
data row reports as N + 1; in particular a batch whose 5th data row is the
invalid one reports that row as row 6. -/
theorem C8_amended_row_numbering :
    (∀ (v : CsvRow → Bool) (rows : List CsvRow) (i : Nat) (h : i < rows.length),
       v (rows.get ⟨i, h⟩) = false → i + 2 ∈ rowErrors v rows) ∧
    rowErrors validateCsvRow batch10 = [6] := by
  constructor
  · intro v rows i h hv
    simpa using mem_rowErrorsAux v rows 0 i h hv
  · decide

/-- C8 (witness): the first data row of a batch starting with an invalid
row reports as row 2, and the concrete bad row of `batch10` as row 6. -/
theorem C8_witness :
    2 ∈ rowErrors validateCsvRow (badPhoneRow :: batch10) ∧
    rowErrors validateCsvRow batch10 = [6] :=
  ⟨C8_amended_row_numbering.1 validateCsvRow (badPhoneRow :: batch10) 0
      (by decide) (by decide),
   C8_amended_row_numbering.2⟩

/-- C10: a batch with more than 200 data rows is rejected with the
batch-size error and an unchanged table, for *every* row validator — so
no row validation influences the outcome. -/
theorem C10_batch_too_large
    (validate : CsvRow → Bool) (rows table : List CsvRow)
    (h : 200 < rows.length) :
    importCsv validate rows table = (.tooLarge, table) := by
  unfold importCsv
  rw [if_pos h]

/-- C10 (witness): 201 copies of a row are rejected even under a validator
that fails every row, and nothing is committed. -/
theorem C10_witness :
    importCsv (fun _ => false) (List.replicate 201 janeRow) [] =
      (.tooLarge, ([] : List CsvRow)) :=
  C10_batch_too_large (fun _ => false) (List.replicate 201 janeRow) []
    (by rw [List.length_replicate]; omega)

/-- C4: when the record is found and the supplied (truthy) prior timestamp
differs from the stored one, the update returns Conflict and the database
— records and history alike — is exactly what it was. -/
theorem C4_conflict_unchanged
    (validate : List (String × JsVal) → Option (List (String × JsVal)))
    (userId id : String) (t now : Nat) (body : List (String × JsVal))
    (db : Db) (b : Buyer)
    (hfind : db.buyers.find? (fun x => x.id == id && x.ownerId == userId) = some b)
    (hne : t ≠ b.updatedAt) :
    putBuyer validate userId id (some t) body now db = (.conflict, db) := by
  have hcc : conflictCheck (some t) b.updatedAt = true := by
    unfold conflictCheck
    rw [bne_iff_ne]
    exact hne
  simp [putBuyer, hfind, hcc]

/-- C4 (witness): a concrete stale update (supplied 5, stored 1000)
conflicts and leaves the one-record database untouched. -/
theorem C4_witness :
    putBuyer (fun x => some x) "u1" "b1" (some 5) noopPayload 2000 db0 =
      (.conflict, db0) :=
  C4_conflict_unchanged (fun x => some x) "u1" "b1" 5 2000 noopPayload db0 b0
    rfl (by decide)

/-- C5: when the payload's `updatedAt` is absent or falsy, the
optimistic-concurrency check is skipped: the request never returns
Conflict, whatever timestamp is currently stored, and when the record is
found and validation succeeds the update goes through. -/
theorem C5_skip_concurrency_when_absent
    (validate : List (String × JsVal) → Option (List (String × JsVal)))
    (userId id : String) (body : List (String × JsVal)) (now : Nat) (db : Db) :
    (putBuyer validate userId id none body now db).1 ≠ PutResult.conflict ∧
    ∀ (b : Buyer) (v : List (String × JsVal)),
      db.buyers.find? (fun x => x.id == id && x.ownerId == userId) = some b →
      validate body = some v →
      (putBuyer validate userId id none body now db).1 = PutResult.ok := by
  cases hf : db.buyers.find? (fun x => x.id == id && x.ownerId == userId) with
  | none =>
    refine ⟨?_, ?_⟩
    · simp [putBuyer, hf]
    · intro b v hb _
      exact Option.noConfusion hb
  | some b =>
    have hcc : conflictCheck none b.updatedAt = false := rfl
    refine ⟨?_, ?_⟩
    · cases hv : validate body with
      | none => simp [putBuyer, hf, hv, hcc]
      | some v => simp [putBuyer, hf, hv, hcc]
    · intro b' v hb hv
      injection hb with hb'
      subst hb'
      simp [putBuyer, hf, hv, hcc]

/-- C5 (witness): a concrete update without a supplied timestamp succeeds
against a store whose timestamp the caller never observed. -/
theorem C5_witness :
    (putBuyer (fun x => some x) "u1" "b1" none noopPayload 2000 db0).1 =
      PutResult.ok :=
  (C5_skip_concurrency_when_absent (fun x => some x) "u1" "b1" noopPayload
      2000 db0).2 b0 noopPayload rfl rfl

/-- C2 (counterexample): a payload carrying the same field values as the
stored record — the `tags` array has identical contents but is a fresh
allocation, as every JSON-parsed body array is — produces a *non-empty*
change set, and the no-op update *does* insert a HistoryEntry. -/
theorem C2_counterexample :
    noopPayload.all (fun kv => jsValEq (storedVal b0 kv.1) kv.2) = true ∧
    computeDiff b0 noopPayload =
      [("tags", JsVal.arr 0 ["vip"], JsVal.arr 1 ["vip"])] ∧
    (putBuyer (fun x => some x) "u1" "b1" none noopPayload 2000 db0).2.history.length = 1 := by
  decide

/-- C2 (amended): for update payloads whose submitted values are all
primitives (strings, numbers, null, undefined), carrying the same field
values as the stored record produces the empty change set; and a
HistoryEntry is inserted on update exactly when the computed change set is
non-empty.  Array-valued fields (`tags`) are compared by reference, so a
payload resubmitting identical tag contents yields a non-empty change set
and does insert a HistoryEntry. -/
theorem C2_amended_diff_history :
    (∀ (b : Buyer) (validated : List (String × JsVal)),
       (∀ kv ∈ validated, jsScalar kv.2 = true ∧
          jsValEq (storedVal b kv.1) kv.2 = true) →
       computeDiff b validated = []) ∧
    (∀ (validate : List (String × JsVal) → Option (List (String × JsVal)))
       (userId id : String) (bodyUpdatedAt : Option Nat)
       (body : List (String × JsVal)) (now : Nat) (db : Db)
       (b : Buyer) (v : List (String × JsVal)),
       db.buyers.find? (fun x => x.id == id && x.ownerId == userId) = some b →
       conflictCheck bodyUpdatedAt b.updatedAt = false →
       validate body = some v →
       (putBuyer validate userId id bodyUpdatedAt body now db).2.history =
         (if (computeDiff b v).isEmpty then db.history
          else db.history ++ [⟨id, userId, computeDiff b v⟩])) := by
  constructor
  · intro b validated hkv
    unfold computeDiff
    rw [List.filterMap_eq_nil_iff]
    intro kv hmem
    obtain ⟨hs, he⟩ := hkv kv hmem
    have hst : jsStrictEq (storedVal b kv.1) kv.2 = true := by
      rw [jsValEq_scalar_strict _ _ hs]
      exact he
    by_cases hk : (kv.1 == "id" || kv.1 == "updatedAt" || kv.1 == "ownerId") = true
    · rw [if_pos hk]
    · rw [if_neg hk]
      simp only [hst, if_true]
  · intro validate userId id bodyUpdatedAt body now db b v hf hcc hv
    simp [putBuyer, hf, hcc, hv]

/-- C2 (witness): a scalar-only no-op payload truly diffs to nothing, and
the history effect of a concrete successful update is exactly the
change-set-guarded insertion. -/
theorem C2_witness :
    computeDiff b0 [("fullName", JsVal.str "Jane")] = [] ∧
    (putBuyer (fun x => some x) "u1" "b1" none noopPayload 2000 db0).2.history =
      (if (computeDiff b0 noopPayload).isEmpty then db0.history
       else db0.history ++ [⟨"b1", "u1", computeDiff b0 noopPayload⟩]) :=
  ⟨C2_amended_diff_history.1 b0 [("fullName", JsVal.str "Jane")] (by decide),
   C2_amended_diff_history.2 (fun x => some x) "u1" "b1" none noopPayload
     2000 db0 b0 noopPayload rfl rfl rfl⟩

/-- C6 (counterexample): with both budget bounds present and
`budgetMax = 0 < 5 = budgetMin`, the refinement passes — JS truthiness
short-circuits on the `0` bound — contradicting "fails iff both present
and max < min". -/
theorem C6_counterexample :
    budgetRefine (some 5) (some 0) = true ∧ (0 : Int) < 5 := by
  decide

/-- C6 (amended): the budget cross-field rule fails iff both bounds are
present, both are non-zero, and max < min (a zero bound is falsy in the
guard, so it disables the check). -/
theorem C6_amended_budget_rule (bmin bmax : Option Int) :
    budgetRefine bmin bmax = false ↔
      ∃ mn mx, bmin = some mn ∧ bmax = some mx ∧
        mn ≠ 0 ∧ mx ≠ 0 ∧ mx < mn := by
  cases bmin with
  | none => simp [budgetRefine, numTruthy]
  | some mn =>
    cases bmax with
    | none => simp [budgetRefine, numTruthy]
    | some mx =>
      simp only [budgetRefine, numTruthy, Option.getD_some]
      constructor
      · intro h
        by_cases hcond : ((mn != 0 && mx != 0) && decide (mx < mn)) = true
        · rw [Bool.and_eq_true, Bool.and_eq_true, bne_iff_ne, bne_iff_ne,
            decide_eq_true_iff] at hcond
          exact ⟨mn, mx, rfl, rfl, hcond.1.1, hcond.1.2, hcond.2⟩
        · rw [if_neg hcond] at h
          exact absurd h (by decide)
      · rintro ⟨mn', mx', h1, h2, h3, h4, h5⟩
        injection h1 with h1
        injection h2 with h2
        subst h1
        subst h2
        rw [if_pos]
        rw [Bool.and_eq_true, Bool.and_eq_true, bne_iff_ne, bne_iff_ne,
          decide_eq_true_iff]
        exact ⟨⟨h3, h4⟩, h5⟩

/-- C7 (counterexample): `"12abc"` is a non-empty, non-numeric cell, yet
the CSV budget pipeline accepts it with value 12 — `parseInt` reads the
leading digit run and silently ignores the trailing characters — instead
of failing the row as the claim states. -/
theorem C7_counterexample :
    isNumericCell "12abc" = false ∧ "12abc" ≠ "" ∧
    parseBudgetCell "12abc" = some (some 12) := by
  decide

/-- C7 (amended): in CSV mode the empty budget cell is coerced to absent;
an all-digit cell is coerced to its non-negative integer value; and a
non-empty cell fails the row exactly when `parseInt` finds no leading
integer (NaN) or a negative one — a cell with a leading digit run followed
by garbage, such as `"12abc"`, passes with the value of the prefix. -/
theorem C7_amended_numeric_coercion :
    parseBudgetCell "" = some none ∧
    (∀ s : String, isNumericCell s = true →
       ∃ n : Nat, parseBudgetCell s = some (some (n : Int))) ∧
    (∀ s : String, parseBudgetCell s = none ↔
       s ≠ "" ∧ (parseIntJS s = none ∨ ∃ n : Int, parseIntJS s = some n ∧ n < 0)) ∧
    parseBudgetCell "12abc" = some (some 12) := by
  refine ⟨rfl, fun s h => parseBudgetCell_numeric s h, ?_, by decide⟩
  intro s
  by_cases hs : (s == "") = true
  · have hseq : s = "" := by
      rw [beq_iff_eq] at hs
      exact hs
    subst hseq
    simp [parseBudgetCell]
  · have hne : s ≠ "" := by
      rw [Bool.not_eq_true, beq_eq_false_iff_ne] at hs
      exact hs
    cases hp : parseIntJS s with
    | none =>
      have heq : parseBudgetCell s = none := by
        unfold parseBudgetCell
        rw [if_neg hs, hp]
      simp [heq, hne]
    | some n =>
      have heq : parseBudgetCell s = if 0 ≤ n then some (some n) else none := by
        unfold parseBudgetCell
        rw [if_neg hs, hp]
      rw [heq]
      by_cases h0 : (0 : Int) ≤ n
      · rw [if_pos h0]
        constructor
        · intro hc
          exact Option.noConfusion hc
        · rintro ⟨_, hc | ⟨m, hm, hlt⟩⟩
          · exact Option.noConfusion hc
          · injection hm with hm
            subst hm
            exact absurd h0 (by omega)
      · rw [if_neg h0]
        simp only [true_iff]
        exact ⟨hne, Or.inr ⟨n, rfl, by omega⟩⟩

/-- C7 (witness): the empty cell is absent and the all-digit cell `"42"`
is coerced to a non-negative integer. -/
theorem C7_witness :
    parseBudgetCell "" = some none ∧
    ∃ n : Nat, parseBudgetCell "42" = some (some (n : Int)) :=
  ⟨C7_amended_numeric_coercion.1,
   C7_amended_numeric_coercion.2.1 "42" (by decide)⟩

/-- C9 (counterexample): the exported `fullName` cell of a record whose
name contains a double quote is the raw name wrapped in quotes — the
internal quote is *not* doubled (only the `notes` cell is escaped),
contradicting "every field … with internal double-quote characters
doubled". -/
theorem C9_counterexample :
    (exportCells quoteNameBuyer).head? = some (csvField "a\"b") ∧
    csvField "a\"b" ≠ csvField (escapeQuotes "a\"b") := by
  decide

/-- C9 (amended): every cell of every data row is wrapped in double
quotes, the `notes` cell (and only that one is escaped) has its internal
quotes doubled, tags are joined with `;`, there is one data row per
record, and the rows are the stored records ordered by last-modified
(`updatedAt`) ascending — but cells other than `notes` keep internal
double quotes unescaped. -/
theorem C9_amended_export_format :
    (∀ (b : ExportBuyer), ∀ c ∈ exportCells b, ∃ s, c = csvField s) ∧
    (∀ b : ExportBuyer,
       (exportCells b)[11]? = some (csvField (escapeQuotes (orEmpty b.notes)))) ∧
    (∀ b : ExportBuyer,
       (exportCells b)[12]? =
         some (csvField (String.intercalate ";" ((b.tags).getD [])))) ∧
    (∀ bs : List ExportBuyer, (exportCsv bs).length = bs.length + 1) ∧
    (∀ bs : List ExportBuyer, List.Sorted updatedAtLe (sortByUpdatedAt bs)) ∧
    (∀ bs : List ExportBuyer, (sortByUpdatedAt bs).Perm bs) := by
  refine ⟨?_, fun b => rfl, fun b => rfl, ?_, ?_, ?_⟩
  · intro b c hc
    unfold exportCells at hc
    obtain ⟨s, _, rfl⟩ := List.mem_map.mp hc
    exact ⟨s, rfl⟩
  · intro bs
    unfold exportCsv sortByUpdatedAt
    rw [List.length_cons, List.length_map,
      (List.perm_insertionSort updatedAtLe bs).length_eq]
  · intro bs
    exact List.sorted_insertionSort updatedAtLe bs
  · intro bs
    exact List.perm_insertionSort updatedAtLe bs

/-- C9 (witness): a concrete cell is quote-wrapped, and a one-record
export has exactly one data row after the header. -/
theorem C9_witness :
    (∃ s, csvField "a\"b" = csvField s) ∧
    (exportCsv [quoteNameBuyer]).length = 2 :=
  ⟨C9_amended_export_format.1 quoteNameBuyer (csvField "a\"b") (by decide),
   C9_amended_export_format.2.2.2.1 [quoteNameBuyer]⟩

end MiniBuyer
